import Mathlib

/-!
Verification of the demolition root-volume rotation tool (src/main.rs).

The single source file is a straight-line `main` that: creates the mount
point, mounts the device, archives the current root volume by renaming it
into the backups directory, lists the backups directory, sorts entries by
the duration from the Unix epoch to their last-modified time, selects a
prefix for deletion, deletes each selected entry via a btrfs subprocess,
and unmounts.

We embed this shallowly: filesystem and subprocess results become an
explicit `World` of responses, `main` becomes a pure `run` producing the
list of mutating actions attempted, the log lines emitted, and the exit
status.  Durations are modelled as natural numbers (nanoseconds),
timestamps as integers (so that times before the Unix epoch are
representable, as in `SystemTime`).
-/

namespace Demolition

/-- Exit code for invalid or missing environment configuration
(source: const EXIT_ENV: i32 = 1). -/
def EXIT_ENV : Nat := 1

/-- Exit code for operational failure (source: const EXIT_ERR: i32 = 2). -/
def EXIT_ERR : Nat := 2

/-! ## Time model -/

/-- Embeds SystemTime.duration_since(UNIX_EPOCH): the Rust call returns
Ok(elapsed) when the time is at or after the epoch and Err otherwise.
A timestamp is an integer offset from the epoch; the result duration is
that offset as a natural number. -/
def durationSinceEpoch (t : Int) : Option Nat :=
  if 0 ≤ t then some t.toNat else none

/-- A backup directory entry: its path and last-modified timestamp
(integer offset from the Unix epoch, negative for pre-epoch times). -/
structure Entry where
  path : String
  modified : Int
deriving Repr, DecidableEq

/-- Embeds the age computation of main.rs lines 134-136:
modified.duration_since(SystemTime::UNIX_EPOCH).unwrap_or_default().
The Err branch (pre-epoch timestamp) is absorbed into the zero duration. -/
def Entry.age (e : Entry) : Nat :=
  (durationSinceEpoch e.modified).getD 0

/-! ## Retention policy evaluator -/

/-- Embeds lines 137-139: the (age, entry) pairs, sorted ascending by age
(backups.sort_unstable_by_key).  The source sort is unstable, so the order
of equal-age entries is unspecified there; no claim depends on it. -/
def sortBackups (entries : List Entry) : List (Nat × Entry) :=
  (entries.map fun e => (e.age, e)).mergeSort (fun a b => a.1 ≤ b.1)

/-- Embeds line 141: backups.len().saturating_sub(keep_count), i.e.
truncated subtraction. -/
def removeCount (entries : List Entry) (keepCount : Nat) : Nat :=
  entries.length - keepCount

/-- Embeds lines 143-146: from the sorted list, take the first
remove_count entries, then take while the age is strictly greater than
keep_during. -/
def selectPrunable (entries : List Entry) (keepCount keepDuring : Nat) :
    List (Nat × Entry) :=
  ((sortBackups entries).take (removeCount entries keepCount)).takeWhile
    fun p => keepDuring < p.1

/-! ## Directory listing -/

/-- One item yielded by read_dir (lines 121-138).  `err` is an Err from
the iterator itself; `entry` carries the path and the result of
entry.metadata().and_then(modified). -/
inductive DirItem
  | err (msg : String)
  | entry (path : String) (modified : Except String Int)
deriving Repr

/-- Embeds the listing loop of lines 121-138.  Returns the warning
messages emitted so far, and either the collected entries or the fatal
bail message.  An iterator error logs a warning and continues; a
metadata error hits the unwrap! macro, which bails (exit EXIT_ERR). -/
def listBackups : List DirItem → List String × Except String (List Entry)
  | [] => ([], .ok [])
  | .err m :: rest =>
    let r := listBackups rest
    (("skipping backup: " ++ m) :: r.1, r.2)
  | .entry _ (.error m) :: _ =>
    ([], .error ("failed to get backup creation date: " ++ m))
  | .entry p (.ok t) :: rest =>
    let r := listBackups rest
    (r.1, r.2.map fun es => Entry.mk p t :: es)

/-! ## The full run -/

/-- Log severities of the log crate. -/
inductive Severity
  | trace | debug | info | warn | error
deriving Repr, DecidableEq

/-- One emitted log line. -/
structure LogLine where
  sev : Severity
  msg : String
deriving Repr, DecidableEq

/-- The externally visible operations the program attempts, in order. -/
inductive Action
  | createDir (path : String)
  | mount (device path : String)
  | rename (src dst : String)
  | spawnDelete (path : String)
  | unmount (path : String)
deriving Repr, DecidableEq

/-- Result of fs::create_dir on the mount point (lines 85-91). -/
inductive CreateDirOutcome
  | ok
  | alreadyExists
  | otherError (msg : String)
deriving Repr, DecidableEq

/-- Result of root_volume.metadata().and_then(created) (line 98). -/
inductive MetaResult
  | ok (created : Int)
  | notFound
  | otherError (msg : String)
deriving Repr, DecidableEq

/-- Result of running the btrfs delete subprocess (lines 162-183):
success; a non-success exit with a known code; a non-success exit whose
code cannot be read; or a failure to launch or wait (cmd.status() Err). -/
inductive DeleteOutcome
  | success
  | exited (code : Int)
  | unknownCode
  | launchFailure (msg : String)
deriving Repr, DecidableEq

/-- Configuration, after environment loading (lines 73-83). -/
structure Config where
  mountDir : String
  rootVolume : String
  backupsDir : String
  keepDuring : Nat
  keepCount : Nat
  dryRun : Bool
deriving Repr, DecidableEq

/-- The responses the outside world gives to each operation of one run.
`none` in an Option String field means success; `some msg` an error.
`fmt` is the chrono rendering of the creation timestamp through the
configured backup format string. -/
structure World where
  createDir : CreateDirOutcome
  mountResult : Option String
  rootMeta : MetaResult
  renameResult : Option String
  readDir : Except String (List DirItem)
  delete : String → DeleteOutcome
  unmountResult : Option String
  fmt : Int → String

/-- Process exit: normal (0), configuration error (EXIT_ENV), or
operational failure (EXIT_ERR). -/
inductive ExitStatus
  | normal | envError | opError
deriving Repr, DecidableEq

/-- The observable outcome of a run. -/
structure RunResult where
  actions : List Action
  logs : List LogLine
  exit : ExitStatus
deriving Repr, DecidableEq

/-- Output of one sequential phase of main: actions attempted, logs
emitted, and whether the phase hit a bail! (process exit EXIT_ERR). -/
structure PhaseOut where
  actions : List Action
  logs : List LogLine
  fatal : Bool
deriving Repr, DecidableEq

/-- Sequencing of phases: a fatal phase exits the process, so nothing
after it happens. -/
def PhaseOut.andThen (a b : PhaseOut) : PhaseOut :=
  if a.fatal then a else ⟨a.actions ++ b.actions, a.logs ++ b.logs, b.fatal⟩

/-- Embeds lines 85-91: create the mount point; success logs at debug,
AlreadyExists logs at warn and continues, anything else bails. -/
def createDirPhase (c : Config) (w : World) : PhaseOut :=
  match w.createDir with
  | .ok =>
    ⟨[.createDir c.mountDir], [⟨.debug, "created mount point"⟩], false⟩
  | .alreadyExists =>
    ⟨[.createDir c.mountDir], [⟨.warn, "mount point already exists"⟩], false⟩
  | .otherError m =>
    ⟨[.createDir c.mountDir],
      [⟨.error, "failed to create mount point: " ++ m⟩], true⟩

/-- Embeds lines 93-96: mount the fixed device; failure bails. -/
def mountPhase (c : Config) (w : World) : PhaseOut :=
  match w.mountResult with
  | none => ⟨[.mount "/dev/mapper/crypted" c.mountDir], [], false⟩
  | some m =>
    ⟨[.mount "/dev/mapper/crypted" c.mountDir],
      [⟨.error, "mount failed: " ++ m⟩], true⟩

/-- Embeds lines 98-114: read the root volume creation time.  Present:
rename it (or log the rename under dry run); rename failure bails.
NotFound: debug log, continue.  Any other metadata error bails. -/
def rotatePhase (c : Config) (w : World) : PhaseOut :=
  match w.rootMeta with
  | .ok created =>
    let backup := c.backupsDir ++ "/" ++ w.fmt created
    if c.dryRun then
      ⟨[], [⟨.info, "dry run: mv " ++ c.rootVolume ++ " " ++ backup⟩], false⟩
    else
      match w.renameResult with
      | none => ⟨[.rename c.rootVolume backup], [], false⟩
      | some m =>
        ⟨[.rename c.rootVolume backup],
          [⟨.error,
            "failed to move existing root volume into backups: " ++ m⟩],
          true⟩
  | .notFound => ⟨[], [⟨.debug, "no old root volume found"⟩], false⟩
  | .otherError m =>
    ⟨[], [⟨.error, "failed to get root volume creation date: " ++ m⟩], true⟩

/-- Embeds lines 116-138: read_dir itself failing bails; then the listing
loop (listBackups) either bails on a metadata error or yields the
entries, with a warning per skipped item. -/
def listPhase (_c : Config) (w : World) : PhaseOut × List Entry :=
  match w.readDir with
  | .error m =>
    (⟨[], [⟨.error, "failed to get entries of backups directory: " ++ m⟩],
      true⟩, [])
  | .ok items =>
    match (listBackups items).2 with
    | .error m =>
      (⟨[], ((listBackups items).1.map fun s => (⟨.warn, s⟩ : LogLine)) ++
        [⟨.error, m⟩], true⟩, [])
    | .ok es =>
      (⟨[], (listBackups items).1.map fun s => (⟨.warn, s⟩ : LogLine),
        false⟩, es)

/-- Embeds lines 147-183 for one selected entry: the trace line, then
under dry run an info line and no subprocess; otherwise the subprocess is
spawned and every non-success outcome only logs a warning. -/
def deleteOne (c : Config) (w : World) (e : Entry) :
    List Action × List LogLine :=
  let traceLog : LogLine := ⟨.trace, "removing backup: " ++ e.path⟩
  if c.dryRun then
    ([], [traceLog,
      ⟨.info, "dry run: btrfs subvolume delete --recursive " ++ e.path⟩])
  else
    let warnLogs : List LogLine :=
      match w.delete e.path with
      | .success => []
      | .exited code =>
        [⟨.warn, "btrfs subvolume delete " ++ e.path ++ " exitted with " ++
          toString code⟩]
      | .unknownCode =>
        [⟨.warn, "btrfs subvolume delete " ++ e.path ++
          " exitted with unknown exit code"⟩]
      | .launchFailure m =>
        [⟨.warn, "failed to get btrfs exit code while removing backup " ++
          e.path ++ ": " ++ m⟩]
    ([.spawnDelete e.path], traceLog :: warnLogs)

/-- Embeds the pruning loop over the selected entries.  No branch of the
loop body bails, so the phase is never fatal. -/
def prunePhase (c : Config) (w : World) (selected : List (Nat × Entry)) :
    PhaseOut :=
  ⟨(selected.map fun p => (deleteOne c w p.2).1).flatten,
    (selected.map fun p => (deleteOne c w p.2).2).flatten, false⟩

/-- Embeds lines 186-188: unmount; failure bails. -/
def unmountPhase (c : Config) (w : World) : PhaseOut :=
  match w.unmountResult with
  | none => ⟨[.unmount c.mountDir], [], false⟩
  | some m => ⟨[.unmount c.mountDir], [⟨.error, "umount failed: " ++ m⟩], true⟩

/-- The whole of main from line 85 on, as the sequence of its phases. -/
def run (c : Config) (w : World) : RunResult :=
  let entries := (listPhase c w).2
  let p := createDirPhase c w
  let p := p.andThen (mountPhase c w)
  let p := p.andThen (rotatePhase c w)
  let p := p.andThen (listPhase c w).1
  let p := p.andThen ⟨[],
    [⟨.trace, "removing up to " ++ toString (removeCount entries c.keepCount)
      ++ " of " ++ toString entries.length ++ " backups"⟩], false⟩
  let p := p.andThen
    (prunePhase c w (selectPrunable entries c.keepCount c.keepDuring))
  let p := p.andThen (unmountPhase c w)
  ⟨p.actions, p.logs, if p.fatal then .opError else .normal⟩

/-! ## Build-time configuration -/

/-- Embeds line 83: let dry_run = cfg!(debug_assertions).  The flag is the
compile-time debug-assertions setting, not runtime configuration. -/
def dryRunFlag (debugAssertions : Bool) : Bool := debugAssertions

/-- Embeds the env! macro (lines 13-21): under debug assertions an unset
variable falls back to the built-in default; otherwise it logs an error
and exits with EXIT_ENV. -/
def envOs (debugAssertions : Bool) (value : Option String)
    (dbgDefault : String) : Except Nat String :=
  if debugAssertions then .ok (value.getD dbgDefault)
  else
    match value with
    | some v => .ok v
    | none => .error EXIT_ENV

/-- The candidate list of lines 143-145: the first remove_count entries of
the sorted backups. -/
def candidates (entries : List Entry) (keepCount : Nat) : List (Nat × Entry) :=
  (sortBackups entries).take (removeCount entries keepCount)

/-! ## Helper lemmas -/

theorem selectPrunable_eq_takeWhile (entries : List Entry) (kc kd : Nat) :
    selectPrunable entries kc kd =
      (candidates entries kc).takeWhile (fun p => kd < p.1) := rfl

theorem takeWhile_eq_take_length {α : Type} (p : α → Bool) (l : List α) :
    l.takeWhile p = l.take (l.takeWhile p).length := by
  induction l with
  | nil => rfl
  | cons x xs ih =>
    by_cases h : p x = true
    · rw [List.takeWhile_cons, if_pos h]
      simp only [List.length_cons, List.take_succ_cons]
      exact congrArg _ ih
    · rw [List.takeWhile_cons, if_neg h]
      rfl

theorem takeWhile_length_le {α : Type} (p : α → Bool) (l : List α) :
    (l.takeWhile p).length ≤ l.length := by
  induction l with
  | nil => exact Nat.le_refl _
  | cons x xs ih =>
    by_cases h : p x = true
    · rw [List.takeWhile_cons, if_pos h]
      simpa using ih
    · rw [List.takeWhile_cons, if_neg h]
      simp

theorem takeWhile_getD_stop {α : Type} (p : α → Bool) (l : List α) (d : α)
    (h : (l.takeWhile p).length < l.length) :
    p (l.getD (l.takeWhile p).length d) = false := by
  induction l with
  | nil => simp at h
  | cons x xs ih =>
    by_cases hx : p x = true
    · rw [List.takeWhile_cons, if_pos hx] at h ⊢
      simp only [List.length_cons] at h ⊢
      rw [List.getD_cons_succ]
      exact ih (Nat.lt_of_succ_lt_succ h)
    · rw [List.takeWhile_cons, if_neg hx]
      simp only [List.length_nil, List.getD_cons_zero]
      simp only [Bool.not_eq_true] at hx
      exact hx

theorem mem_takeWhile_mem {α : Type} (p : α → Bool) (l : List α) (x : α)
    (h : x ∈ l.takeWhile p) : x ∈ l := by
  induction l with
  | nil => simp [List.takeWhile] at h
  | cons y ys ih =>
    by_cases hy : p y = true
    · rw [List.takeWhile_cons, if_pos hy] at h
      rcases List.mem_cons.mp h with rfl | hmem
      · exact List.mem_cons_self _ _
      · exact List.mem_cons_of_mem _ (ih hmem)
    · rw [List.takeWhile_cons, if_neg hy] at h
      simp at h

theorem sortBackups_sorted (entries : List Entry) :
    (sortBackups entries).Pairwise fun a b => a.1 ≤ b.1 := by
  have h := @List.sorted_mergeSort (Nat × Entry)
    (fun a b => a.1 ≤ b.1)
    (fun a b c hab hbc => by
      simp only [decide_eq_true_eq] at hab hbc ⊢
      omega)
    (fun a b => by simpa using Nat.le_total a.1 b.1)
    (entries.map fun e => (e.age, e))
  exact h.imp fun hab => by simpa using hab

theorem sortBackups_perm (entries : List Entry) :
    (sortBackups entries).Perm (entries.map fun e => (e.age, e)) :=
  List.mergeSort_perm _ _

theorem sortBackups_headD_le (entries : List Entry) (q d : Nat × Entry)
    (hq : q ∈ sortBackups entries) :
    ((sortBackups entries).headD d).1 ≤ q.1 := by
  rcases hs : sortBackups entries with _ | ⟨x, t⟩
  · rw [hs] at hq
    simp at hq
  · rw [hs] at hq
    have hp := sortBackups_sorted entries
    rw [hs] at hp
    rcases List.mem_cons.mp hq with rfl | hmem
    · simp
    · simpa using (List.pairwise_cons.mp hp).1 q hmem

theorem age_eq_toNat (e : Entry) : e.age = e.modified.toNat := by
  simp only [Entry.age, durationSinceEpoch]
  split
  · rfl
  · simp only [Option.getD_none]
    omega

theorem age_eq_zero (e : Entry) (h : e.modified ≤ 0) : e.age = 0 := by
  rw [age_eq_toNat]
  omega

/-! ## Claims about the retention policy evaluator -/

/-- C1: for every backups listing sorted ascending by timeline position,
the selection is exactly the maximal ascending prefix of the first
remove_count candidates whose values are strictly above keep_duration:
the selection is an initial segment of the candidates, every selected
value is strictly above the threshold, and when the selection stops
before the end of the candidates the next candidate is at or below the
threshold (so no later candidate is selected, even one above it). -/
theorem selection_is_maximal_prefix_of_candidates
    (entries : List Entry) (kc kd : Nat) :
    selectPrunable entries kc kd =
      (candidates entries kc).take (selectPrunable entries kc kd).length ∧
    (∀ p ∈ selectPrunable entries kc kd, kd < p.1) ∧
    ((selectPrunable entries kc kd).length < (candidates entries kc).length →
      ((candidates entries kc).getD (selectPrunable entries kc kd).length
        (0, Entry.mk "" 0)).1 ≤ kd) := by
  refine ⟨?_, ?_, ?_⟩
  · rw [selectPrunable_eq_takeWhile]
    exact takeWhile_eq_take_length _ _
  · intro p hp
    rw [selectPrunable_eq_takeWhile] at hp
    simpa using List.mem_takeWhile_imp hp
  · intro h
    rw [selectPrunable_eq_takeWhile] at h ⊢
    have hstop := takeWhile_getD_stop (fun p => decide (kd < p.1))
      (candidates entries kc) (0, Entry.mk "" 0) h
    simp only [decide_eq_false_iff_not] at hstop
    omega

/-- Witness for C1 at a concrete listing. -/
theorem selection_is_maximal_prefix_of_candidates_witness :
    selectPrunable [Entry.mk "a" 10, Entry.mk "b" 3, Entry.mk "c" 5] 1 2 =
      (candidates [Entry.mk "a" 10, Entry.mk "b" 3, Entry.mk "c" 5] 1).take
        (selectPrunable [Entry.mk "a" 10, Entry.mk "b" 3, Entry.mk "c" 5] 1 2).length :=
  (selection_is_maximal_prefix_of_candidates
    [Entry.mk "a" 10, Entry.mk "b" 3, Entry.mk "c" 5] 1 2).1

/-- C2: the timeline position of an entry is the absolute last-modified
timestamp measured from the fixed epoch (clamped to zero below it), not a
distance from the current moment (no present time occurs in the
computation); the sorted listing is ascending by this value, a
permutation of the age-tagged entries, and its first element has the
smallest value (oldest first). -/
theorem timeline_position_is_absolute_and_sorted (entries : List Entry) :
    (∀ e : Entry, e.age = e.modified.toNat) ∧
    ((sortBackups entries).Pairwise fun a b => a.1 ≤ b.1) ∧
    (sortBackups entries).Perm (entries.map fun e => (e.age, e)) ∧
    (∀ p ∈ sortBackups entries,
      ((sortBackups entries).headD (0, Entry.mk "" 0)).1 ≤ p.1) :=
  ⟨age_eq_toNat, sortBackups_sorted entries, sortBackups_perm entries,
    fun p hp => sortBackups_headD_le entries p _ hp⟩

/-- Witness for C2 at a concrete listing. -/
theorem timeline_position_is_absolute_and_sorted_witness :
    (sortBackups [Entry.mk "a" 10, Entry.mk "b" 3]).Perm
      ([Entry.mk "a" 10, Entry.mk "b" 3].map fun e => (e.age, e)) :=
  (timeline_position_is_absolute_and_sorted [Entry.mk "a" 10, Entry.mk "b" 3]).2.2.1

/-- C3: remove_count is the truncated difference of the total count and
keep_count; when the count is at most keep_count nothing is selected; and
the selection stays within the first remove_count sorted entries, so the
keep_count most-recent entries are never selected regardless of age. -/
theorem keep_count_window_protected (entries : List Entry) (kc kd : Nat) :
    ((removeCount entries kc : Int) =
      max 0 ((entries.length : Int) - (kc : Int))) ∧
    (entries.length ≤ kc → selectPrunable entries kc kd = []) ∧
    (selectPrunable entries kc kd).length ≤ removeCount entries kc ∧
    (∀ p ∈ selectPrunable entries kc kd, p ∈ candidates entries kc) := by
  refine ⟨?_, ?_, ?_, ?_⟩
  · simp only [removeCount]
    omega
  · intro h
    rw [selectPrunable_eq_takeWhile]
    unfold candidates removeCount
    rw [Nat.sub_eq_zero_of_le h]
    simp
  · rw [selectPrunable_eq_takeWhile]
    refine Nat.le_trans (takeWhile_length_le _ _) ?_
    unfold candidates
    simp only [List.length_take]
    omega
  · intro p hp
    rw [selectPrunable_eq_takeWhile] at hp
    exact mem_takeWhile_mem _ _ _ hp

/-- Witness for C3, discharging the count hypothesis at a concrete
listing with fewer entries than keep_count. -/
theorem keep_count_window_protected_witness :
    selectPrunable [Entry.mk "a" 10] 2 0 = [] :=
  (keep_count_window_protected [Entry.mk "a" 10] 2 0).2.1 (by decide)

/-- C9: an entry whose last-modified timestamp is at or before the Unix
epoch gets timeline position zero (the duration_since error branch is
absorbed by unwrap_or_default), the head of the sorted listing then has
position zero, and since zero is never strictly above keep_duration the
selected prefix is empty: neither that entry nor any other is deleted in
that run. -/
theorem pre_epoch_entry_halts_pruning (entries : List Entry) (kc kd : Nat)
    (e : Entry) (he : e ∈ entries) (ht : e.modified ≤ 0) :
    e.age = 0 ∧
    ((sortBackups entries).headD (0, Entry.mk "" 0)).1 = 0 ∧
    selectPrunable entries kc kd = [] := by
  have hage : e.age = 0 := age_eq_zero e ht
  have hmem : (e.age, e) ∈ sortBackups entries := by
    rw [(sortBackups_perm entries).mem_iff]
    exact List.mem_map_of_mem _ he
  have hhead : ((sortBackups entries).headD (0, Entry.mk "" 0)).1 = 0 := by
    have h1 := sortBackups_headD_le entries (e.age, e) (0, Entry.mk "" 0) hmem
    simp only [hage] at h1
    omega
  refine ⟨hage, hhead, ?_⟩
  rw [selectPrunable_eq_takeWhile]
  rcases hs : candidates entries kc with _ | ⟨x, t⟩
  · rfl
  · have hx : (sortBackups entries).headD (0, Entry.mk "" 0) = x := by
      unfold candidates at hs
      rcases hrc : removeCount entries kc with _ | n
      · rw [hrc] at hs
        simp at hs
      · rw [hrc] at hs
        rcases hsort : sortBackups entries with _ | ⟨y, ys⟩
        · rw [hsort] at hs
          simp at hs
        · rw [hsort, List.take_succ_cons] at hs
          rw [List.cons.injEq] at hs
          simp [hs.1]
    have hx1 : x.1 = 0 := by rw [← hx]; exact hhead
    rw [List.takeWhile_cons, hx1]
    simp

/-- Witness for C9, discharging the membership and timestamp hypotheses
at a concrete listing with one pre-epoch entry. -/
theorem pre_epoch_entry_halts_pruning_witness :
    (Entry.mk "a" (-5)).age = 0 ∧
    ((sortBackups [Entry.mk "a" (-5), Entry.mk "b" 100]).headD
      (0, Entry.mk "" 0)).1 = 0 ∧
    selectPrunable [Entry.mk "a" (-5), Entry.mk "b" 100] 0 0 = [] :=
  pre_epoch_entry_halts_pruning [Entry.mk "a" (-5), Entry.mk "b" 100] 0 0
    (Entry.mk "a" (-5)) (by decide) (by decide)

/-! ## Helper lemmas about the run -/

theorem mem_andThen_left (a : Action) (x y : PhaseOut) (h : a ∈ x.actions) :
    a ∈ (x.andThen y).actions := by
  unfold PhaseOut.andThen
  by_cases hf : x.fatal = true
  · rw [if_pos hf]
    exact h
  · rw [if_neg hf]
    exact List.mem_append_left _ h

theorem mem_andThen_right (a : Action) (x y : PhaseOut)
    (hx : x.fatal = false) (h : a ∈ y.actions) : a ∈ (x.andThen y).actions := by
  unfold PhaseOut.andThen
  rw [if_neg (by simp [hx])]
  exact List.mem_append_right _ h

theorem mem_andThen_cases (a : Action) (x y : PhaseOut)
    (h : a ∈ (x.andThen y).actions) : a ∈ x.actions ∨ a ∈ y.actions := by
  unfold PhaseOut.andThen at h
  by_cases hf : x.fatal = true
  · rw [if_pos hf] at h
    exact Or.inl h
  · rw [if_neg hf] at h
    exact List.mem_append.mp h

theorem andThen_congr (x₁ x₂ y₁ y₂ : PhaseOut)
    (hxa : x₁.actions = x₂.actions) (hxf : x₁.fatal = x₂.fatal)
    (hya : y₁.actions = y₂.actions) (hyf : y₁.fatal = y₂.fatal) :
    (x₁.andThen y₁).actions = (x₂.andThen y₂).actions ∧
    (x₁.andThen y₁).fatal = (x₂.andThen y₂).fatal := by
  unfold PhaseOut.andThen
  by_cases h : x₁.fatal = true
  · rw [if_pos h, if_pos (hxf ▸ h)]
    exact ⟨hxa, hxf⟩
  · rw [if_neg h, if_neg (hxf ▸ h)]
    exact ⟨by simp [hxa, hya], hyf⟩

theorem createDirPhase_actions (c : Config) (w : World) :
    (createDirPhase c w).actions = [Action.createDir c.mountDir] := by
  cases hc : w.createDir <;> simp [createDirPhase, hc]

theorem createDirPhase_exists_nonfatal (c : Config) (w : World)
    (h : w.createDir = .alreadyExists) :
    createDirPhase c w =
      ⟨[Action.createDir c.mountDir],
        [⟨Severity.warn, "mount point already exists"⟩], false⟩ := by
  simp [createDirPhase, h]

theorem mountPhase_actions (c : Config) (w : World) :
    (mountPhase c w).actions = [Action.mount "/dev/mapper/crypted" c.mountDir] := by
  cases hm : w.mountResult <;> simp [mountPhase, hm]

theorem rotatePhase_notFound (c : Config) (w : World)
    (h : w.rootMeta = .notFound) :
    rotatePhase c w = ⟨[], [⟨Severity.debug, "no old root volume found"⟩], false⟩ := by
  simp [rotatePhase, h]

theorem rotatePhase_fatal_other (c : Config) (w : World) (m : String)
    (h : w.rootMeta = .otherError m) : (rotatePhase c w).fatal = true := by
  simp [rotatePhase, h]

theorem rotatePhase_dry (c : Config) (w : World) (t : Int)
    (hd : c.dryRun = true) (hm : w.rootMeta = .ok t) :
    rotatePhase c w =
      ⟨[], [⟨Severity.info, "dry run: mv " ++ c.rootVolume ++ " " ++
        (c.backupsDir ++ "/" ++ w.fmt t)⟩], false⟩ := by
  simp [rotatePhase, hm, hd]

theorem rotatePhase_actions_dry (c : Config) (w : World)
    (hd : c.dryRun = true) : (rotatePhase c w).actions = [] := by
  rcases hm : w.rootMeta with t | _ | m <;> simp [rotatePhase, hm, hd]

theorem listPhase_actions (c : Config) (w : World) :
    (listPhase c w).1.actions = [] := by
  rcases hr : w.readDir with m | items
  · simp [listPhase, hr]
  · rcases hl : (listBackups items).2 with m | es <;> simp [listPhase, hr, hl]

theorem deleteOne_actions (c : Config) (w : World) (e : Entry) :
    (deleteOne c w e).1 =
      if c.dryRun then [] else [Action.spawnDelete e.path] := by
  by_cases hd : c.dryRun = true
  · simp [deleteOne, hd]
  · simp [deleteOne, hd]

theorem prunePhase_actions (c : Config) (w : World) (sel : List (Nat × Entry)) :
    (prunePhase c w sel).actions =
      if c.dryRun then [] else sel.map fun p => Action.spawnDelete p.2.path := by
  induction sel with
  | nil => by_cases hd : c.dryRun = true <;> simp [prunePhase, hd]
  | cons x xs ih =>
    simp only [prunePhase, List.map_cons, List.flatten_cons] at ih ⊢
    rw [deleteOne_actions, ih]
    by_cases hd : c.dryRun = true <;> simp [hd]

theorem prunePhase_fatal (c : Config) (w : World) (sel : List (Nat × Entry)) :
    (prunePhase c w sel).fatal = false := rfl

theorem unmountPhase_actions (c : Config) (w : World) :
    (unmountPhase c w).actions = [Action.unmount c.mountDir] := by
  cases hu : w.unmountResult <;> simp [unmountPhase, hu]

theorem run_actions_mem (c : Config) (w : World) (a : Action)
    (h : a ∈ (run c w).actions) :
    a ∈ (createDirPhase c w).actions ∨ a ∈ (mountPhase c w).actions ∨
    a ∈ (rotatePhase c w).actions ∨ a ∈ (listPhase c w).1.actions ∨
    a ∈ (prunePhase c w
      (selectPrunable (listPhase c w).2 c.keepCount c.keepDuring)).actions ∨
    a ∈ (unmountPhase c w).actions := by
  simp only [run] at h
  rcases mem_andThen_cases _ _ _ h with h | h
  · rcases mem_andThen_cases _ _ _ h with h | h
    · rcases mem_andThen_cases _ _ _ h with h | h
      · rcases mem_andThen_cases _ _ _ h with h | h
        · rcases mem_andThen_cases _ _ _ h with h | h
          · rcases mem_andThen_cases _ _ _ h with h | h
            · exact Or.inl h
            · exact Or.inr (Or.inl h)
          · exact Or.inr (Or.inr (Or.inl h))
        · exact Or.inr (Or.inr (Or.inr (Or.inl h)))
      · simp at h
    · exact Or.inr (Or.inr (Or.inr (Or.inr (Or.inl h))))
  · exact Or.inr (Or.inr (Or.inr (Or.inr (Or.inr h))))

theorem deleteOne_warn (c : Config) (w : World) (e : Entry)
    (hd : c.dryRun = false) (hf : w.delete e.path ≠ .success) :
    ∃ l ∈ (deleteOne c w e).2, l.sev = Severity.warn := by
  cases ho : w.delete e.path with
  | success => exact absurd ho hf
  | exited code =>
    refine ⟨⟨Severity.warn, "btrfs subvolume delete " ++ e.path ++
      " exitted with " ++ toString code⟩, ?_, rfl⟩
    simp [deleteOne, hd, ho]
  | unknownCode =>
    refine ⟨⟨Severity.warn, "btrfs subvolume delete " ++ e.path ++
      " exitted with unknown exit code"⟩, ?_, rfl⟩
    simp [deleteOne, hd, ho]
  | launchFailure m =>
    refine ⟨⟨Severity.warn, "failed to get btrfs exit code while removing backup "
      ++ e.path ++ ": " ++ m⟩, ?_, rfl⟩
    simp [deleteOne, hd, ho]

theorem prunePhase_warn (c : Config) (w : World) (sel : List (Nat × Entry))
    (p : Nat × Entry) (hp : p ∈ sel) (hd : c.dryRun = false)
    (hf : w.delete p.2.path ≠ .success) :
    ∃ l ∈ (prunePhase c w sel).logs, l.sev = Severity.warn := by
  obtain ⟨l, hl, hsev⟩ := deleteOne_warn c w p.2 hd hf
  refine ⟨l, ?_, hsev⟩
  simp only [prunePhase]
  rw [List.mem_flatten]
  exact ⟨(deleteOne c w p.2).2, List.mem_map_of_mem _ hp, hl⟩

theorem runResult_congr_prune (P u q₁ q₂ : PhaseOut)
    (ha : q₁.actions = q₂.actions) (hf : q₁.fatal = q₂.fatal) :
    ((P.andThen q₁).andThen u).actions = ((P.andThen q₂).andThen u).actions ∧
    ((P.andThen q₁).andThen u).fatal = ((P.andThen q₂).andThen u).fatal := by
  have h1 := andThen_congr P P q₁ q₂ rfl rfl ha hf
  exact andThen_congr _ _ u u h1.1 h1.2 rfl rfl

theorem run_delete_congr (c : Config) (w : World)
    (d₁ d₂ : String → DeleteOutcome) :
    (run c { w with delete := d₁ }).actions =
      (run c { w with delete := d₂ }).actions ∧
    (run c { w with delete := d₁ }).exit =
      (run c { w with delete := d₂ }).exit := by
  have hprune : ∀ sel,
      (prunePhase c { w with delete := d₁ } sel).actions =
        (prunePhase c { w with delete := d₂ } sel).actions ∧
      (prunePhase c { w with delete := d₁ } sel).fatal =
        (prunePhase c { w with delete := d₂ } sel).fatal := by
    intro sel
    exact ⟨by rw [prunePhase_actions, prunePhase_actions], rfl⟩
  simp only [run]
  rw [show createDirPhase c { w with delete := d₂ } =
        createDirPhase c { w with delete := d₁ } from rfl,
      show mountPhase c { w with delete := d₂ } =
        mountPhase c { w with delete := d₁ } from rfl,
      show rotatePhase c { w with delete := d₂ } =
        rotatePhase c { w with delete := d₁ } from rfl,
      show listPhase c { w with delete := d₂ } =
        listPhase c { w with delete := d₁ } from rfl,
      show unmountPhase c { w with delete := d₂ } =
        unmountPhase c { w with delete := d₁ } from rfl]
  refine ⟨(runResult_congr_prune _ _ _ _ (hprune _).1 (hprune _).2).1, ?_⟩
  exact congrArg (fun b : Bool => if b then ExitStatus.opError else ExitStatus.normal)
    (runResult_congr_prune _ _ _ _ (hprune _).1 (hprune _).2).2

/-! ## Sample configuration and worlds for concrete instances -/

/-- A concrete configuration for concrete-input theorems. -/
def sampleConfig : Config :=
  ⟨"/mnt", "/mnt/root", "/mnt/root-backups", 86400, 1, false⟩

/-- A concrete world in which every operation succeeds and the root
volume is absent. -/
def sampleWorld : World :=
  ⟨.ok, none, .notFound, none, .ok [], fun _ => .success, none, fun _ => "t"⟩

/-- A world whose listing contains one entry with unreadable metadata. -/
def metaErrWorld : World :=
  { sampleWorld with readDir := .ok [DirItem.entry "b1" (.error "io")] }

/-- A world in which the mount point directory already exists. -/
def aeWorld : World := { sampleWorld with createDir := .alreadyExists }

/-- A world in which the root volume is present with creation time 5. -/
def rotateWorld : World := { sampleWorld with rootMeta := .ok 5 }

/-- The sample configuration with the dry-run flag set. -/
def dryConfig : Config := { sampleConfig with dryRun := true }

/-! ## Claims about the run -/

/-- C4 counterexample: in a run where one backup entry has unreadable
metadata during listing, the run aborts with the operational-failure
exit status and never reaches the unmount step, instead of logging a
warning, skipping the entry and continuing to completion. -/
theorem unreadable_metadata_aborts_run_cex :
    (run sampleConfig metaErrWorld).exit = ExitStatus.opError ∧
    Action.unmount "/mnt" ∉ (run sampleConfig metaErrWorld).actions := by
  constructor
  · rfl
  · decide

/-- C4 amended: a backup-directory entry whose directory-iteration result
is itself an error is skipped with a warning and the listing continues;
but an entry whose metadata (last-modified time) cannot be read is fatal:
the listing pass aborts with the bail message. -/
theorem listing_error_policy (m p em : String) (rest rest2 : List DirItem) :
    (listBackups (DirItem.err m :: rest)).1 =
      ("skipping backup: " ++ m) :: (listBackups rest).1 ∧
    (listBackups (DirItem.err m :: rest)).2 = (listBackups rest).2 ∧
    (listBackups (DirItem.entry p (.error em) :: rest2)).2 =
      Except.error ("failed to get backup creation date: " ++ em) :=
  ⟨rfl, rfl, rfl⟩

/-- Witness for the amended C4 at concrete listings. -/
theorem listing_error_policy_witness :
    (listBackups [DirItem.err "e1"]).1 =
      ("skipping backup: " ++ "e1") :: (listBackups []).1 ∧
    (listBackups [DirItem.err "e1"]).2 = (listBackups []).2 ∧
    (listBackups [DirItem.entry "b" (.error "io")]).2 =
      Except.error ("failed to get backup creation date: " ++ "io") :=
  listing_error_policy "e1" "b" "io" [] []

/-- C5: the deletion outcomes influence neither the set of attempted
actions nor the exit status of the run (so a failure deleting one entry
cannot prevent the attempt on a later entry, stop the unmount, or change
the exit); outside dry-run the pruning phase spawns the delete subprocess
for every selected entry in order, is never fatal, and a non-success
outcome for a selected entry produces a warning log line. -/
theorem delete_failures_do_not_abort (c : Config) (w : World)
    (d₁ d₂ : String → DeleteOutcome) (sel : List (Nat × Entry)) :
    ((run c { w with delete := d₁ }).actions =
      (run c { w with delete := d₂ }).actions) ∧
    ((run c { w with delete := d₁ }).exit =
      (run c { w with delete := d₂ }).exit) ∧
    (c.dryRun = false →
      (prunePhase c w sel).actions =
        sel.map fun p => Action.spawnDelete p.2.path) ∧
    (prunePhase c w sel).fatal = false ∧
    (∀ p ∈ sel, c.dryRun = false → w.delete p.2.path ≠ .success →
      ∃ l ∈ (prunePhase c w sel).logs, l.sev = Severity.warn) := by
  refine ⟨(run_delete_congr c w d₁ d₂).1, (run_delete_congr c w d₁ d₂).2,
    ?_, prunePhase_fatal c w sel, ?_⟩
  · intro hd
    rw [prunePhase_actions]
    simp [hd]
  · intro p hp hd hf
    exact prunePhase_warn c w sel p hp hd hf

/-- Witness for C5: a run in which every delete subprocess exits with
code 1 has the same exit status as one in which every delete succeeds. -/
theorem delete_failures_do_not_abort_witness :
    (run sampleConfig
      { sampleWorld with delete := fun _ => DeleteOutcome.exited 1 }).exit =
    (run sampleConfig
      { sampleWorld with delete := fun _ => DeleteOutcome.success }).exit :=
  (delete_failures_do_not_abort sampleConfig sampleWorld
    (fun _ => DeleteOutcome.exited 1) (fun _ => DeleteOutcome.success) []).2.1

/-- C6: when the root volume path does not exist, rotation performs no
action at all (no archive, no rename), only logs at debug severity, is
not fatal, and the whole run never attempts a rename; any other error
reading the root volume metadata is fatal. -/
theorem root_volume_absent_is_noop (c : Config) (w : World) :
    (w.rootMeta = .notFound →
      rotatePhase c w =
        ⟨[], [⟨Severity.debug, "no old root volume found"⟩], false⟩ ∧
      ∀ s d, Action.rename s d ∉ (run c w).actions) ∧
    (∀ m, w.rootMeta = .otherError m → (rotatePhase c w).fatal = true) := by
  constructor
  · intro h
    refine ⟨rotatePhase_notFound c w h, ?_⟩
    intro s d hmem
    rcases run_actions_mem c w _ hmem with h1 | h1 | h1 | h1 | h1 | h1
    · rw [createDirPhase_actions] at h1
      simp at h1
    · rw [mountPhase_actions] at h1
      simp at h1
    · rw [rotatePhase_notFound c w h] at h1
      simp at h1
    · rw [listPhase_actions] at h1
      simp at h1
    · rw [prunePhase_actions] at h1
      by_cases hd : c.dryRun = true
      · simp [hd] at h1
      · simp [hd] at h1
    · rw [unmountPhase_actions] at h1
      simp at h1
  · exact fun m hm => rotatePhase_fatal_other c w m hm

/-- Witness for C6 at a concrete world with no root volume. -/
theorem root_volume_absent_is_noop_witness :
    rotatePhase sampleConfig sampleWorld =
      ⟨[], [⟨Severity.debug, "no old root volume found"⟩], false⟩ :=
  ((root_volume_absent_is_noop sampleConfig sampleWorld).1 rfl).1

/-- C7: under dry-run mode no run action is a rename or a delete
subprocess spawn (the backups directory and root volume are never
mutated); the suppressed rename is replaced by a descriptive info log
line, and each suppressed delete by a descriptive info log line with no
spawned subprocess. -/
theorem dry_run_performs_no_mutation (c : Config) (w : World)
    (hd : c.dryRun = true) :
    (∀ a ∈ (run c w).actions,
      (∀ s d, a ≠ Action.rename s d) ∧ ∀ p, a ≠ Action.spawnDelete p) ∧
    (∀ t, w.rootMeta = .ok t →
      rotatePhase c w =
        ⟨[], [⟨Severity.info, "dry run: mv " ++ c.rootVolume ++ " " ++
          (c.backupsDir ++ "/" ++ w.fmt t)⟩], false⟩) ∧
    (∀ e : Entry, deleteOne c w e =
      ([], [⟨Severity.trace, "removing backup: " ++ e.path⟩,
        ⟨Severity.info,
          "dry run: btrfs subvolume delete --recursive " ++ e.path⟩])) := by
  refine ⟨?_, ?_, ?_⟩
  · intro a ha
    rcases run_actions_mem c w a ha with h1 | h1 | h1 | h1 | h1 | h1
    · rw [createDirPhase_actions] at h1
      simp only [List.mem_singleton] at h1
      subst h1
      exact ⟨fun s d => by simp, fun p => by simp⟩
    · rw [mountPhase_actions] at h1
      simp only [List.mem_singleton] at h1
      subst h1
      exact ⟨fun s d => by simp, fun p => by simp⟩
    · rw [rotatePhase_actions_dry c w hd] at h1
      simp at h1
    · rw [listPhase_actions] at h1
      simp at h1
    · rw [prunePhase_actions] at h1
      simp [hd] at h1
    · rw [unmountPhase_actions] at h1
      simp only [List.mem_singleton] at h1
      subst h1
      exact ⟨fun s d => by simp, fun p => by simp⟩
  · exact fun t hm => rotatePhase_dry c w t hd hm
  · intro e
    simp [deleteOne, hd]

/-- Witness for C7: under the dry configuration, deleting a concrete
entry spawns nothing and logs the equivalent command. -/
theorem dry_run_performs_no_mutation_witness :
    deleteOne dryConfig sampleWorld (Entry.mk "/mnt/root-backups/a" 3) =
      ([], [⟨Severity.trace, "removing backup: " ++ "/mnt/root-backups/a"⟩,
        ⟨Severity.info, "dry run: btrfs subvolume delete --recursive " ++
          "/mnt/root-backups/a"⟩]) :=
  (dry_run_performs_no_mutation dryConfig sampleWorld rfl).2.2
    (Entry.mk "/mnt/root-backups/a" 3)

/-- C8 counterexample: when the mount point already exists the code logs
at warn severity, refuting that the condition is logged at a low severity
level and not as a warning. -/
theorem mount_point_preexists_logged_as_warning_cex :
    (createDirPhase sampleConfig aeWorld).logs =
      [⟨Severity.warn, "mount point already exists"⟩] ∧
    ¬ (∀ l ∈ (createDirPhase sampleConfig aeWorld).logs,
        l.sev ≠ Severity.warn) := by
  constructor
  · rfl
  · decide

/-- C8 amended: a pre-existing mount point directory is not an error: the
phase is not fatal, the run continues to attempt the mount, and the
condition is logged — as a warning; any other error creating the mount
point is fatal. -/
theorem mount_point_preexistence_nonfatal (c : Config) (w : World) :
    (w.createDir = .alreadyExists →
      (createDirPhase c w).fatal = false ∧
      (createDirPhase c w).logs =
        [⟨Severity.warn, "mount point already exists"⟩] ∧
      Action.mount "/dev/mapper/crypted" c.mountDir ∈ (run c w).actions) ∧
    (∀ m, w.createDir = .otherError m → (createDirPhase c w).fatal = true) := by
  constructor
  · intro h
    have hfatal : (createDirPhase c w).fatal = false := by
      simp [createDirPhase, h]
    refine ⟨hfatal, by simp [createDirPhase, h], ?_⟩
    have hmem : Action.mount "/dev/mapper/crypted" c.mountDir ∈
        ((createDirPhase c w).andThen (mountPhase c w)).actions :=
      mem_andThen_right _ _ _ hfatal (by rw [mountPhase_actions]; simp)
    simp only [run]
    exact mem_andThen_left _ _ _ (mem_andThen_left _ _ _ (mem_andThen_left _ _ _
      (mem_andThen_left _ _ _ (mem_andThen_left _ _ _ hmem))))
  · intro m h
    simp [createDirPhase, h]

/-- Witness for the amended C8: with the mount point pre-existing, the
run still reaches the mount attempt. -/
theorem mount_point_preexistence_nonfatal_witness :
    Action.mount "/dev/mapper/crypted" sampleConfig.mountDir ∈
      (run sampleConfig aeWorld).actions :=
  ((mount_point_preexistence_nonfatal sampleConfig aeWorld).1 rfl).2.2

/-- C10: the dry-run flag equals the build-time debug-assertions setting;
under debug assertions an unset environment variable falls back to the
built-in default while a release build exits with the configuration-error
status EXIT_ENV; a set variable is used in either build; and with the
root volume present a release-build rotation performs the real rename
while a debug-build rotation performs none. -/
theorem dry_run_fixed_at_build_time (d : Bool) (v dbg : String)
    (c : Config) (w : World) (t : Int) :
    dryRunFlag d = d ∧
    envOs true none dbg = .ok dbg ∧
    envOs false none dbg = .error EXIT_ENV ∧
    envOs d (some v) dbg = .ok v ∧
    (w.rootMeta = .ok t → w.renameResult = none →
      (rotatePhase { c with dryRun := dryRunFlag false } w).actions =
        [Action.rename c.rootVolume (c.backupsDir ++ "/" ++ w.fmt t)] ∧
      (rotatePhase { c with dryRun := dryRunFlag true } w).actions = []) := by
  refine ⟨rfl, rfl, rfl, ?_, ?_⟩
  · cases d <;> rfl
  · intro hm hr
    constructor
    · simp [rotatePhase, hm, hr, dryRunFlag]
    · simp [rotatePhase, hm, dryRunFlag]

/-- Witness for C10: a debug-build rotation of a concrete present root
volume attempts no rename. -/
theorem dry_run_fixed_at_build_time_witness :
    (rotatePhase { sampleConfig with dryRun := dryRunFlag true }
      rotateWorld).actions = [] :=
  ((dry_run_fixed_at_build_time true "v" "1day" sampleConfig rotateWorld 5).2.2.2.2
    rfl rfl).2

end Demolition
